import Mathlib

/-!
Shallow embedding of the SciRAP in-vitro evaluation tool (src/app.py):
text normalization, the static rule catalogs, the two rule evaluators,
the verdict-to-score tables and the aggregation/banding logic, together
with theorems settling the specification claims about them.

Strings manipulated by the evaluators are modelled as `List Char`
(document text) and `String` (verdicts, explanations, keywords); rational
scores are modelled as `ℚ` (every numeric value in the program is a small
dyadic rational, so floating point is exact and `ℚ` is faithful).
-/

/-- Python whitespace characters matched by the ASCII part of the regex
class `\s` in `re.sub(r"\s+", " ", text)` and `re.sub(r"[^a-z0-9\s]", " ", text)`.
After transliteration the text is ASCII, so this is the full class. -/
def isPySpace (c : Char) : Prop :=
  c = ' ' ∨ c = '\t' ∨ c = '\n' ∨ c = '\r' ∨ c = '\x0b' ∨ c = '\x0c'

instance (c : Char) : Decidable (isPySpace c) := by
  unfold isPySpace; infer_instance

/-- A lowercase Latin letter, the class `a-z` of the source regexes. -/
def isLowerAlpha (c : Char) : Prop := 97 ≤ c.toNat ∧ c.toNat ≤ 122

instance (c : Char) : Decidable (isLowerAlpha c) := by
  unfold isLowerAlpha; infer_instance

/-- A decimal digit, the class `0-9` of the source regexes. -/
def isDigitCh (c : Char) : Prop := 48 ≤ c.toNat ∧ c.toNat ≤ 57

instance (c : Char) : Decidable (isDigitCh c) := by
  unfold isDigitCh; infer_instance

/-- The character class `[a-z0-9 ]` that the specification says normalized
text is drawn from. -/
def allowedChar (c : Char) : Prop := isLowerAlpha c ∨ isDigitCh c ∨ c = ' '

instance (c : Char) : Decidable (allowedChar c) := by
  unfold allowedChar; infer_instance

/-- Model of the third-party `unidecode` transliteration used by
`normalize_text`: it is the identity on ASCII characters (the only
property any theorem below relies on) and maps non-ASCII characters to an
ASCII approximation; a representative sample of its table is included,
with unlisted characters dropped. -/
def unidecodeChar (c : Char) : List Char :=
  if c.toNat < 128 then [c]
  else if c = 'é' then ['e']
  else if c = 'É' then ['E']
  else if c = 'Â' then ['A']
  else if c = 'µ' then ['u']
  else []

/-- Transliteration `unidecode.unidecode` applied to a whole string. -/
def unidecodeStr (s : List Char) : List Char :=
  (s.map unidecodeChar).flatten

/-- One character of Python `str.lower()`; its argument is the ASCII
output of the transliteration step, on which lowering is the ASCII map. -/
def lowerChar (c : Char) : Char :=
  if 65 ≤ c.toNat ∧ c.toNat ≤ 90 then Char.ofNat (c.toNat + 32) else c

/-- Step `text.replace("- ", "")`: delete every occurrence of a hyphen
immediately followed by a space, scanning left to right without
reconsidering text before the deletion point (Python semantics). -/
def removeHyphenSpace : List Char → List Char
  | [] => []
  | [c] => [c]
  | a :: b :: rest =>
    if a = '-' ∧ b = ' ' then removeHyphenSpace rest
    else a :: removeHyphenSpace (b :: rest)

/-- Worker for `re.sub(r"\s+", " ", text)`: the flag records whether the
previous character was whitespace, so each maximal whitespace run emits a
single space. -/
def collapseAux : Bool → List Char → List Char
  | _, [] => []
  | prevWS, c :: rest =>
    if isPySpace c then
      (if prevWS then collapseAux true rest else ' ' :: collapseAux true rest)
    else c :: collapseAux false rest

/-- Step `re.sub(r"\s+", " ", text)`. -/
def collapseWS (s : List Char) : List Char := collapseAux false s

/-- One character of `re.sub(r"[^a-z0-9\s]", " ", text)`: characters
outside the class are replaced by a space (not removed). -/
def keepAllowed (c : Char) : Char :=
  if isLowerAlpha c ∨ isDigitCh c ∨ isPySpace c then c else ' '

/-- Step `re.sub(r"[^a-z0-9\s]", " ", text)` over the whole string. -/
def punctToSpace (s : List Char) : List Char := s.map keepAllowed

/-- Function `normalize_text` from src/app.py: transliterate, lower-case, delete
hyphen-space pairs, collapse whitespace runs, then replace the remaining
non-`[a-z0-9\s]` characters by spaces, in that order. -/
def normalize_text (s : List Char) : List Char :=
  punctToSpace (collapseWS (removeHyphenSpace ((unidecodeStr s).map lowerChar)))

/-- Whether `p` is an initial segment of `s` (Boolean). -/
def listStarts : List Char → List Char → Bool
  | [], _ => true
  | _ :: _, [] => false
  | a :: ps, b :: ss => a == b && listStarts ps ss

/-- The Python substring test `k in text` on strings: `k` occurs as a
contiguous substring of `t`. -/
def occursIn (k : List Char) : List Char → Bool
  | [] => listStarts k []
  | c :: rest => listStarts k (c :: rest) || occursIn k rest

/-- A Reporting Quality rule: question text plus strong and weak keyword
lists (no contradiction list). -/
structure RQRule where
  question : String
  strong : List String
  weak : List String
  deriving DecidableEq

/-- A Methodological Quality rule: question text plus strong, weak and
contradiction keyword lists. -/
structure MQRule where
  question : String
  strong : List String
  weak : List String
  contradict : List String
  deriving DecidableEq

/-- A Relevance rule: question text plus direct, indirect and
not-relevant keyword lists. -/
structure RRule where
  question : String
  direct : List String
  indirect : List String
  not_rel : List String
  deriving DecidableEq

/-- Catalog `RQ_RULES` from src/app.py, in declaration (dict insertion) order. -/
def RQ_RULES : List (String × RQRule) := [
  ("RQ1", ⟨"Chemical name or identification was given",
    ["cas", "chemical name", "cas number", "iupac", "molecular formula", "structure"],
    ["test compound", "compound", "chemical obtained", "purchased from"]⟩),
  ("RQ2", ⟨"Purity was stated or traceable",
    ["high purity", "certificate of analysis", "hplc", "99%", "batch number", "lot number"],
    ["purity", "purchased from", "supplied by"]⟩),
  ("RQ3", ⟨"Solubility was described",
    ["solubility", "soluble in", "solubility test"],
    ["dissolved", "prepared in"]⟩),
  ("RQ4", ⟨"Solvent (vehicle) was described",
    ["dmso", "ethanol", "pbs", "solvent", "vehicle"],
    ["carrier"]⟩),
  ("RQ5", ⟨"Solvent (vehicle) control included",
    ["vehicle control", "solvent control"],
    ["control group"]⟩),
  ("RQ6", ⟨"Test system described",
    ["cell line", "primary cells", "tissue", "organ culture", "embryo"],
    ["cells used", "in vitro model"]⟩),
  ("RQ7", ⟨"Source of test system stated",
    ["atcc", "supplier", "catalog number", "cat no"],
    ["obtained from", "purchased from"]⟩),
  ("RQ8", ⟨"Metabolic competence described",
    ["cyp450", "s9 fraction", "metabolic activation"],
    ["metabolize", "biotransformation"]⟩),
  ("RQ9", ⟨"Cell passage number stated",
    ["passage", "p#", "passage number"],
    ["subcultured"]⟩),
  ("RQ10", ⟨"Media composition described",
    ["dmem", "rpmi", "fbs", "serum", "antibiotic"],
    ["media", "culture medium"]⟩),
  ("RQ11", ⟨"Incubation conditions described",
    ["37c", "co2", "humidity", "incubator"],
    ["room temperature"]⟩),
  ("RQ12", ⟨"Contamination control described",
    ["mycoplasma", "contamination check", "sterility test"],
    ["sterile conditions"]⟩),
  ("RQ13", ⟨"Dose levels stated",
    ["um", "mm", "mg ml", "concentration", "dose"],
    ["treated with"]⟩),
  ("RQ14", ⟨"Cell density or number stated",
    ["cells well", "seeding density", "cell density"],
    ["cells plated"]⟩),
  ("RQ15", ⟨"Duration of treatment stated",
    ["24h", "48h", "72h", "exposure time"],
    ["overnight"]⟩),
  ("RQ16", ⟨"Number of replicates stated",
    ["replicates", "n=", "triplicate", "independent"],
    ["repeated"]⟩),
  ("RQ17", ⟨"Methods sufficiently described",
    ["protocol", "procedure", "assay method", "analytical method"],
    ["as previously described"]⟩),
  ("RQ18", ⟨"Time points stated",
    ["time point", "collected at", "measured at"],
    ["over time"]⟩),
  ("RQ19", ⟨"Cytotoxicity measured",
    ["mtt", "viability", "cytotoxicity", "ldh"],
    ["cell death"]⟩),
  ("RQ20", ⟨"Results clearly presented",
    ["figure", "table", "results"],
    ["data shown"]⟩),
  ("RQ21", ⟨"Statistical methods described",
    ["anova", "t test", "p value", "graphpad"],
    ["statistics"]⟩),
  ("RQ22", ⟨"Funding sources stated",
    ["funded by", "supported by", "grant"],
    ["financial support"]⟩),
  ("RQ23", ⟨"Competing interests disclosed",
    ["no conflict of interest", "no conflicts of interest",
     "the authors declare no conflict",
     "the authors declare that they have no conflict of interest",
     "no competing interests", "none declared", "no financial conflict",
     "no competing financial interests"],
    ["conflict of interest", "competing interest"]⟩),
  ("RQ24", ⟨"Indispensable information provided", [], []⟩)]

/-- Catalog `MQ_RULES` from src/app.py, in declaration order. -/
def MQ_RULES : List (String × MQRule) := [
  ("MQ1", ⟨"Impurities unlikely to affect results",
    ["high purity", "hplc", "99%", "no impurities"],
    ["purity", "batch", "lot number"],
    ["impurities", "unknown purity"]⟩),
  ("MQ2", ⟨"Compound likely soluble",
    ["soluble", "solubility", "fully dissolved"],
    ["dissolved"],
    ["insoluble", "precipitate"]⟩),
  ("MQ3", ⟨"Appropriate solvent used",
    ["dmso", "ethanol", "pbs"],
    ["solvent"],
    ["toxic solvent"]⟩),
  ("MQ4", ⟨"Solvent control included",
    ["vehicle control", "solvent control"],
    ["control group"],
    ["no control"]⟩),
  ("MQ5", ⟨"Positive control included + expected effect",
    ["positive control", "reference compound", "expected response"],
    ["positive"],
    ["no positive control", "failed positive control"]⟩),
  ("MQ6", ⟨"Reliable + sensitive test system",
    ["validated model", "sensitive assay", "cyp450"],
    ["cell line", "primary cells"],
    ["unreliable"]⟩),
  ("MQ7", ⟨"Maintenance conditions appropriate",
    ["37c", "co2", "dmem", "fbs", "mycoplasma free"],
    ["incubation", "media"],
    ["contamination"]⟩),
  ("MQ8", ⟨"Exposure duration suitable",
    ["24h", "48h", "72h"],
    ["treated for"],
    ["insufficient exposure"]⟩),
  ("MQ9", ⟨"Concentrations suitable",
    ["dose response", "range finding", "multiple concentrations"],
    ["treated with"],
    ["irrelevant concentration", "excessive toxicity"]⟩),
  ("MQ10", ⟨"Test conditions appropriate",
    ["appropriate media", "serum", "cell density", "temperature"],
    ["culture"],
    ["inappropriate conditions"]⟩),
  ("MQ11", ⟨"Reliable analytical methods used",
    ["validated method", "sensitivity", "lod", "standard method"],
    ["method", "protocol"],
    ["unvalidated"]⟩),
  ("MQ12", ⟨"Sufficient replicates",
    ["n=", "triplicate", "biological replicates"],
    ["replicated"],
    ["n=1", "single replicate"]⟩),
  ("MQ13", ⟨"Suitable time points",
    ["time course", "measured at", "multiple time points"],
    ["over time"],
    ["inadequate time points"]⟩),
  ("MQ14", ⟨"Cytotoxicity measured & acceptable",
    ["mtt", "viability", "cytotoxicity", "noncytotoxic"],
    ["cell death"],
    ["severe cytotoxicity"]⟩),
  ("MQ15", ⟨"Statistical methods appropriate",
    ["anova", "t test", "p value"],
    ["statistics"],
    ["inappropriate statistics"]⟩),
  ("MQ16", ⟨"Other reliability factors",
    ["quality control", "validated"],
    ["reliable"],
    ["bias", "experimental flaw"]⟩)]

/-- Catalog `R_RULES` from src/app.py, in declaration order.  Two keywords
here carry the literal bytes of the source file: U+00C2
followed by U+00B5 before the letter m (mojibake present in the source). -/
def R_RULES : List (String × RRule) := [
  ("R1", ⟨"Identity of the tested substance",
    ["pesticide", "insecticide", "herbicide", "fungicide",
     "endocrine disruptor", "bisphenol", "phthalate", "flame retardant",
     "metal", "lead", "arsenic", "cadmium", "mercury"],
    ["industrial chemical", "environmental toxicant", "pollution exposure"],
    ["pharmaceutical drug", "antidepressant", "vitamin",
     "nutraceutical", "nanomaterial", "hormone therapy", "food additive"]⟩),
  ("R2", ⟨"Test system used",
    ["oligodendrocyte", "opc", "myelination", "cns development",
     "prenatal", "perinatal", "early life", "white matter",
     "developmental neurotoxicity"],
    ["neuron culture", "mixed glia", "primary brain cells"],
    ["cancer cell line", "glioblastoma", "hepg2", "a549",
     "alzheimer", "parkinson", "ms", "adult neurodegeneration"]⟩),
  ("R3", ⟨"Endpoint studied",
    ["myelin", "mbp", "olig2", "apoptosis", "oxidative stress",
     "mitochondrial dysfunction", "ros", "cytokine",
     "inflammation", "neurite outgrowth", "cell differentiation",
     "developmental toxicity"],
    ["neurotoxicity", "viability", "cytotoxicity", "gene expression"],
    ["cancer proliferation", "tumor marker",
     "alzheimer marker", "parkinson marker", "metabolic disease"]⟩),
  ("R4", ⟨"Concentrations used",
    ["nm", "Âµm", "low dose", "physiological dose"],
    ["high Âµm", "supraphysiological dose"],
    ["mm", "millimolar", "extremely high dose", "cytotoxic concentration"]⟩)]

/-- Function `evaluate_rule` from src/app.py: keyword hits per category, then
contradiction, strong, weak precedence, else the no-match branch. -/
def evaluate_rule (strong weak contradict : List String) (text : List Char) :
    String × String :=
  let s_hits := strong.filter (fun k => occursIn k.toList text)
  let w_hits := weak.filter (fun k => occursIn k.toList text)
  let c_hits := contradict.filter (fun k => occursIn k.toList text)
  if c_hits ≠ [] then ("Not fulfilled", "Contradictory: " ++ ", ".intercalate c_hits)
  else if s_hits ≠ [] then ("Fulfilled", "Strong: " ++ ", ".intercalate s_hits)
  else if w_hits ≠ [] then ("Partially fulfilled", "Weak: " ++ ", ".intercalate w_hits)
  else ("Not reported", "No information found.")

/-- Function `evaluate_relevance` from src/app.py: exclusion, direct, indirect
precedence, else the no-match branch. -/
def evaluate_relevance (direct indirect not_rel : List String) (text : List Char) :
    String × String :=
  let d_hits := direct.filter (fun k => occursIn k.toList text)
  let i_hits := indirect.filter (fun k => occursIn k.toList text)
  let n_hits := not_rel.filter (fun k => occursIn k.toList text)
  if n_hits ≠ [] then ("Not relevant", "Excluded terms: " ++ ", ".intercalate n_hits)
  else if d_hits ≠ [] then ("Directly relevant", "Direct: " ++ ", ".intercalate d_hits)
  else if i_hits ≠ [] then ("Indirectly relevant", "Indirect: " ++ ", ".intercalate i_hits)
  else ("Not relevant", "No relevance terms found.")

/-- Table `RQ_SCORES` from src/app.py. -/
def RQ_SCORES : List (String × ℚ) :=
  [("Fulfilled", 1), ("Partially fulfilled", 0.5), ("Not fulfilled", 0)]

/-- Table `MQ_SCORES` from src/app.py. -/
def MQ_SCORES : List (String × ℚ) :=
  [("Fulfilled", 1), ("Partially fulfilled", 0.5), ("Not fulfilled", 0),
   ("Not reported", 0)]

/-- Table `REL_SCORES` from src/app.py. -/
def REL_SCORES : List (String × ℚ) :=
  [("Directly relevant", 1), ("Indirectly relevant", 0.5), ("Not relevant", 0)]

/-- The verdict column of the RQ table: each Reporting rule is evaluated
with an empty contradiction list (`evaluate_rule(rule["strong"], rule["weak"], [], text)`). -/
def rqVerdicts (text : List Char) : List String :=
  RQ_RULES.map (fun r => (evaluate_rule r.2.strong r.2.weak [] text).1)

/-- The verdict column of the MQ table. -/
def mqVerdicts (text : List Char) : List String :=
  MQ_RULES.map (fun r => (evaluate_rule r.2.strong r.2.weak r.2.contradict text).1)

/-- The verdict column of the Relevance table. -/
def relVerdicts (text : List Char) : List String :=
  R_RULES.map (fun r => (evaluate_relevance r.2.direct r.2.indirect r.2.not_rel text).1)

/-- pandas `Series.sum()` over a column produced by `Series.map(dict)`:
missing dictionary keys become NaN and `sum` skips NaN entries
(`skipna=True`), so the total adds exactly the successful lookups. -/
def pandasSum (xs : List (Option ℚ)) : ℚ := (xs.filterMap id).sum

/-- Total `rq_total` from src/app.py: map verdicts through `RQ_SCORES`, sum. -/
def rq_total (text : List Char) : ℚ :=
  pandasSum ((rqVerdicts text).map (fun v => RQ_SCORES.lookup v))

/-- Total `mq_total` from src/app.py. -/
def mq_total (text : List Char) : ℚ :=
  pandasSum ((mqVerdicts text).map (fun v => MQ_SCORES.lookup v))

/-- Total `rel_total` from src/app.py. -/
def rel_total (text : List Char) : ℚ :=
  pandasSum ((relVerdicts text).map (fun v => REL_SCORES.lookup v))

/-- Sum `final_score = rq_total + mq_total + rel_total`. -/
def final_score (text : List Char) : ℚ :=
  rq_total text + mq_total text + rel_total text

/-- Maximum `max_score = len(rq_df) + len(mq_df) + len(rel_df)`: one point per
rule of each rubric. -/
def max_score : ℚ :=
  (RQ_RULES.length : ℚ) + (MQ_RULES.length : ℚ) + (R_RULES.length : ℚ)

/-- The quality banding of src/app.py lines 427-432: HIGH at or above
three quarters of the maximum, MODERATE at or above half, else LOW. -/
def overall_quality (text : List Char) : String :=
  if final_score text ≥ 0.75 * max_score then "HIGH"
  else if final_score text ≥ 0.50 * max_score then "MODERATE"
  else "LOW"

/-! ### Substring facts -/

lemma listStarts_sub {k s : List Char} (h : listStarts k s = true) :
    ∀ c ∈ k, c ∈ s := by
  induction k generalizing s with
  | nil => intro c hc; cases hc
  | cons a ks ih =>
    cases s with
    | nil => simp [listStarts] at h
    | cons b ss =>
      simp only [listStarts, Bool.and_eq_true, beq_iff_eq] at h
      intro c hc
      rcases List.mem_cons.mp hc with hc | hc
      · exact hc ▸ h.1 ▸ List.mem_cons_self _ _
      · exact List.mem_cons_of_mem _ (ih h.2 c hc)

lemma occursIn_sub {k t : List Char} (h : occursIn k t = true) :
    ∀ c ∈ k, c ∈ t := by
  induction t with
  | nil =>
    intro c hc
    cases k with
    | nil => cases hc
    | cons a ks => simp [occursIn, listStarts] at h
  | cons b ts ih =>
    simp only [occursIn, Bool.or_eq_true] at h
    rcases h with h | h
    · exact listStarts_sub h
    · exact fun c hc => List.mem_cons_of_mem _ (ih h c hc)

/-! ### The character class of normalized text -/

/-- The head of the list, if any, is not whitespace. -/
def headOk (s : List Char) : Prop := ∀ h ∈ s.head?, ¬ isPySpace h

/-- No two adjacent whitespace characters. -/
def SpacedOk (s : List Char) : Prop :=
  s.Chain' (fun a b => ¬ (isPySpace a ∧ isPySpace b))

lemma mem_collapseAux_space {c : Char} :
    ∀ (s : List Char) (b : Bool), c ∈ collapseAux b s → isPySpace c → c = ' ' := by
  intro s
  induction s with
  | nil => intro b h; simp [collapseAux] at h
  | cons a rest ih =>
    intro b h hsp
    by_cases ha : isPySpace a
    · simp only [collapseAux, if_pos ha] at h
      cases b with
      | true => exact ih true h hsp
      | false =>
        simp only [if_neg (by decide : ¬ (false = true)), List.mem_cons] at h
        rcases h with h | h
        · exact h
        · exact ih true h hsp
    · simp only [collapseAux, if_neg ha, List.mem_cons] at h
      rcases h with h | h
      · exact absurd (h ▸ hsp) ha
      · exact ih false h hsp

lemma mem_collapseAux {c : Char} :
    ∀ (s : List Char) (b : Bool), c ∈ collapseAux b s → c = ' ' ∨ c ∈ s := by
  intro s
  induction s with
  | nil => intro b h; simp [collapseAux] at h
  | cons a rest ih =>
    intro b h
    by_cases ha : isPySpace a
    · simp only [collapseAux, if_pos ha] at h
      cases b with
      | true =>
        rcases ih true h with h | h
        · exact Or.inl h
        · exact Or.inr (List.mem_cons_of_mem _ h)
      | false =>
        simp only [if_neg (by decide : ¬ (false = true)), List.mem_cons] at h
        rcases h with h | h
        · exact Or.inl h
        · rcases ih true h with h | h
          · exact Or.inl h
          · exact Or.inr (List.mem_cons_of_mem _ h)
    · simp only [collapseAux, if_neg ha, List.mem_cons] at h
      rcases h with h | h
      · exact Or.inr (h ▸ List.mem_cons_self _ _)
      · rcases ih false h with h | h
        · exact Or.inl h
        · exact Or.inr (List.mem_cons_of_mem _ h)

lemma collapseAux_ok :
    ∀ (s : List Char) (b : Bool),
      SpacedOk (collapseAux b s) ∧ (b = true → headOk (collapseAux b s)) := by
  intro s
  induction s with
  | nil =>
    intro b
    constructor
    · simp [collapseAux, SpacedOk]
    · intro _; simp [collapseAux, headOk]
  | cons a rest ih =>
    intro b
    by_cases ha : isPySpace a
    · cases b with
      | true => simpa [collapseAux, if_pos ha] using ih true
      | false =>
        simp only [collapseAux, if_pos ha, if_neg (by decide : ¬ (false = true))]
        refine ⟨?_, by simp⟩
        rcases ih true with ⟨hso, hhd⟩
        refine List.chain'_cons'.mpr ⟨?_, hso⟩
        intro h hh hpair
        exact hhd rfl h hh hpair.2
    · simp only [collapseAux, if_neg ha]
      rcases ih false with ⟨hso, _⟩
      refine ⟨List.chain'_cons'.mpr ⟨fun h _ hpair => ha hpair.1, hso⟩, ?_⟩
      intro _
      intro h hh
      simp only [List.head?_cons, Option.mem_def, Option.some.injEq] at hh
      exact hh ▸ ha

lemma collapseAux_id :
    ∀ (s : List Char) (b : Bool), (∀ c ∈ s, allowedChar c) → SpacedOk s →
      (b = true → headOk s) → collapseAux b s = s := by
  intro s
  induction s with
  | nil => intro b _ _ _; simp [collapseAux]
  | cons a rest ih =>
    intro b hall hso hhd
    by_cases ha : isPySpace a
    · have hb : b = false := by
        cases b with
        | false => rfl
        | true => exact absurd ha (hhd rfl a (by simp))
      subst hb
      have haeq : a = ' ' := by
        rcases hall a (List.mem_cons_self _ _) with h | h | h
        · rcases ha with h' | h' | h' | h' | h' | h' <;> subst h' <;>
            exact absurd h (by decide)
        · rcases ha with h' | h' | h' | h' | h' | h' <;> subst h' <;>
            exact absurd h (by decide)
        · exact h
      have hrest : headOk rest := by
        intro h hh hsp
        exact (List.chain'_cons'.mp hso).1 h hh ⟨ha, hsp⟩
      simp only [collapseAux, if_pos ha, if_neg (by decide : ¬ (false = true))]
      rw [ih true (fun c hc => hall c (List.mem_cons_of_mem _ hc))
        (List.chain'_cons'.mp hso).2 (fun _ => hrest), haeq]
    · simp only [collapseAux, if_neg ha]
      rw [ih false (fun c hc => hall c (List.mem_cons_of_mem _ hc))
        (List.chain'_cons'.mp hso).2 (by simp)]

/-! ### Identity of the early stages on already-normalized text -/

lemma allowed_ascii {c : Char} (h : allowedChar c) : c.toNat < 128 := by
  rcases h with ⟨h1, h2⟩ | ⟨h1, h2⟩ | h
  · omega
  · omega
  · subst h; decide

lemma allowed_not_upper {c : Char} (h : allowedChar c) :
    ¬ (65 ≤ c.toNat ∧ c.toNat ≤ 90) := by
  rcases h with ⟨h1, h2⟩ | ⟨h1, h2⟩ | h
  · omega
  · omega
  · subst h; decide

lemma allowed_not_hyphen {c : Char} (h : allowedChar c) : ¬ (c = '-') := by
  intro he
  subst he
  exact absurd h (by decide)

lemma unidecodeStr_id {s : List Char} (h : ∀ c ∈ s, allowedChar c) :
    unidecodeStr s = s := by
  induction s with
  | nil => rfl
  | cons a rest ih =>
    have ha : unidecodeChar a = [a] := by
      unfold unidecodeChar
      rw [if_pos (allowed_ascii (h a (List.mem_cons_self _ _)))]
    simp only [unidecodeStr, List.map_cons, List.flatten_cons, ha]
    simpa [unidecodeStr] using ih (fun c hc => h c (List.mem_cons_of_mem _ hc))

lemma lowerStr_id {s : List Char} (h : ∀ c ∈ s, allowedChar c) :
    s.map lowerChar = s := by
  induction s with
  | nil => rfl
  | cons a rest ih =>
    have ha : lowerChar a = a := by
      unfold lowerChar
      rw [if_neg (allowed_not_upper (h a (List.mem_cons_self _ _)))]
    simp only [List.map_cons, ha]
    rw [ih (fun c hc => h c (List.mem_cons_of_mem _ hc))]

lemma removeHyphenSpace_id : ∀ {s : List Char}, (∀ c ∈ s, ¬ (c = '-')) →
    removeHyphenSpace s = s := by
  intro s
  induction s using removeHyphenSpace.induct with
  | case1 => intro _; rfl
  | case2 c => intro _; rfl
  | case3 a b rest hab ih =>
    intro h
    exact absurd hab.1 (h a (List.mem_cons_self _ _))
  | case4 a b rest hab ih =>
    intro h
    unfold removeHyphenSpace
    rw [if_neg hab, ih (fun c hc => h c (List.mem_cons_of_mem _ hc))]

lemma keepAllowed_id {c : Char} (h : allowedChar c) : keepAllowed c = c := by
  unfold keepAllowed
  rcases h with h | h | h
  · rw [if_pos (Or.inl h)]
  · rw [if_pos (Or.inr (Or.inl h))]
  · subst h; decide

lemma punctToSpace_id {s : List Char} (h : ∀ c ∈ s, allowedChar c) :
    punctToSpace s = s := by
  induction s with
  | nil => rfl
  | cons a rest ih =>
    simp only [punctToSpace, List.map_cons, keepAllowed_id (h a (List.mem_cons_self _ _))]
    simpa [punctToSpace] using ih (fun c hc => h c (List.mem_cons_of_mem _ hc))

/-- Every character of normalized text lies in the class `[a-z0-9 ]`:
the whitespace-collapse step leaves a space as the only whitespace
character, and the final substitution step maps everything else outside
the class to a space. -/
lemma normalize_mem_allowed {s : List Char} :
    ∀ c ∈ normalize_text s, allowedChar c := by
  intro c hc
  unfold normalize_text punctToSpace at hc
  rcases List.mem_map.mp hc with ⟨d, hd, hdc⟩
  subst hdc
  unfold keepAllowed
  by_cases hcond : isLowerAlpha d ∨ isDigitCh d ∨ isPySpace d
  · rw [if_pos hcond]
    rcases hcond with h | h | h
    · exact Or.inl h
    · exact Or.inr (Or.inl h)
    · exact Or.inr (Or.inr (mem_collapseAux_space _ false hd h))
  · rw [if_neg hcond]
    exact Or.inr (Or.inr rfl)

/-- On text whose characters already lie in `[a-z0-9 ]`, `normalize_text`
only collapses whitespace runs: transliteration, lower-casing, the
hyphen-space deletion and the final substitution are all the identity. -/
lemma normalize_eq_collapse {s : List Char} (h : ∀ c ∈ s, allowedChar c) :
    normalize_text s = collapseWS s := by
  unfold normalize_text
  rw [unidecodeStr_id h, lowerStr_id h,
    removeHyphenSpace_id (fun c hc => allowed_not_hyphen (h c hc))]
  refine punctToSpace_id (fun c hc => ?_)
  rcases mem_collapseAux s false hc with hc' | hc'
  · exact Or.inr (Or.inr hc')
  · exact h c hc'

/-- Text in the class `[a-z0-9 ]` with no two adjacent spaces is a fixed
point of `normalize_text`. -/
lemma normalize_fix {s : List Char} (h : ∀ c ∈ s, allowedChar c)
    (hso : SpacedOk s) : normalize_text s = s := by
  rw [normalize_eq_collapse h]
  exact collapseAux_id s false h hso (by simp)

/-! ### Evaluator shape lemmas -/

lemma eval_rule_contra {s w c : List String} {t : List Char} {k : String}
    (hk : k ∈ c) (ho : occursIn k.toList t = true) :
    (evaluate_rule s w c t).1 = "Not fulfilled" := by
  have hne : c.filter (fun x => occursIn x.toList t) ≠ [] :=
    List.ne_nil_of_mem (List.mem_filter.mpr ⟨hk, ho⟩)
  simp only [evaluate_rule]
  rw [if_pos hne]

lemma eval_relevance_excluded {d i n : List String} {t : List Char} {k : String}
    (hk : k ∈ n) (ho : occursIn k.toList t = true) :
    (evaluate_relevance d i n t).1 = "Not relevant" := by
  have hne : n.filter (fun x => occursIn x.toList t) ≠ [] :=
    List.ne_nil_of_mem (List.mem_filter.mpr ⟨hk, ho⟩)
  simp only [evaluate_relevance]
  rw [if_pos hne]

lemma eval_rule_empty_contra {s w : List String} {t : List Char} :
    (evaluate_rule s w [] t).1 = "Fulfilled" ∨
    (evaluate_rule s w [] t).1 = "Partially fulfilled" ∨
    (evaluate_rule s w [] t).1 = "Not reported" := by
  simp only [evaluate_rule, List.filter_nil]
  rw [if_neg (show ¬ (([] : List String) ≠ []) from fun h => h rfl)]
  by_cases h1 : s.filter (fun k => occursIn k.toList t) ≠ []
  · rw [if_pos h1]; exact Or.inl rfl
  · rw [if_neg h1]
    by_cases h2 : w.filter (fun k => occursIn k.toList t) ≠ []
    · rw [if_pos h2]; exact Or.inr (Or.inl rfl)
    · rw [if_neg h2]; exact Or.inr (Or.inr rfl)

lemma eval_rule_all_empty {t : List Char} :
    evaluate_rule [] [] [] t = ("Not reported", "No information found.") := by
  simp only [evaluate_rule, List.filter_nil]
  rw [if_neg (show ¬ (([] : List String) ≠ []) from fun h => h rfl),
    if_neg (show ¬ (([] : List String) ≠ []) from fun h => h rfl),
    if_neg (show ¬ (([] : List String) ≠ []) from fun h => h rfl)]

/-! ### Score aggregation bounds -/

lemma pandasSum_bounds {xs : List (Option ℚ)}
    (h : ∀ o ∈ xs, ∀ q, o = some q → 0 ≤ q ∧ q ≤ 1) :
    0 ≤ pandasSum xs ∧ pandasSum xs ≤ (xs.length : ℚ) := by
  induction xs with
  | nil => simp [pandasSum]
  | cons o rest ih =>
    have hrest := ih (fun o ho q hq => h o (List.mem_cons_of_mem _ ho) q hq)
    cases o with
    | none =>
      have : pandasSum (none :: rest) = pandasSum rest := by
        simp [pandasSum, List.filterMap_cons]
      rw [this]
      refine ⟨hrest.1, le_trans hrest.2 ?_⟩
      simp only [List.length_cons]
      push_cast
      linarith
    | some q =>
      have hq := h (some q) (List.mem_cons_self _ _) q rfl
      have : pandasSum (some q :: rest) = q + pandasSum rest := by
        simp [pandasSum, List.filterMap_cons]
      rw [this]
      constructor
      · linarith [hrest.1, hq.1]
      · simp only [List.length_cons]
        push_cast
        linarith [hrest.2, hq.2]

lemma lookup_val_mem :
    ∀ {l : List (String × ℚ)} {a : String} {b : ℚ},
      l.lookup a = some b → b ∈ l.map Prod.snd := by
  intro l
  induction l with
  | nil => intro a b h; simp [List.lookup] at h
  | cons p rest ih =>
    intro a b h
    obtain ⟨k, v⟩ := p
    cases hbe : (a == k) with
    | true =>
      simp only [List.lookup, hbe] at h
      simp only [Option.some.injEq] at h
      subst h
      simp
    | false =>
      simp only [List.lookup, hbe] at h
      simpa using Or.inr (ih h)

lemma rq_scores_bound {v : String} {q : ℚ} (h : RQ_SCORES.lookup v = some q) :
    0 ≤ q ∧ q ≤ 1 := by
  have hm := lookup_val_mem h
  simp only [RQ_SCORES, List.map_cons, List.map_nil, List.mem_cons,
    List.not_mem_nil, or_false] at hm
  rcases hm with h1 | h1 | h1 <;> subst h1 <;> norm_num

lemma mq_scores_bound {v : String} {q : ℚ} (h : MQ_SCORES.lookup v = some q) :
    0 ≤ q ∧ q ≤ 1 := by
  have hm := lookup_val_mem h
  simp only [MQ_SCORES, List.map_cons, List.map_nil, List.mem_cons,
    List.not_mem_nil, or_false] at hm
  rcases hm with h1 | h1 | h1 | h1 <;> subst h1 <;> norm_num

lemma rel_scores_bound {v : String} {q : ℚ} (h : REL_SCORES.lookup v = some q) :
    0 ≤ q ∧ q ≤ 1 := by
  have hm := lookup_val_mem h
  simp only [REL_SCORES, List.map_cons, List.map_nil, List.mem_cons,
    List.not_mem_nil, or_false] at hm
  rcases hm with h1 | h1 | h1 <;> subst h1 <;> norm_num

lemma rubric_total_bounds {table : List (String × ℚ)}
    (hT : ∀ v q, table.lookup v = some q → 0 ≤ q ∧ q ≤ 1)
    (verdicts : List String) :
    0 ≤ pandasSum (verdicts.map (fun v => table.lookup v)) ∧
      pandasSum (verdicts.map (fun v => table.lookup v)) ≤ (verdicts.length : ℚ) := by
  have hx : ∀ o ∈ verdicts.map (fun v => table.lookup v),
      ∀ q, o = some q → 0 ≤ q ∧ q ≤ 1 := by
    intro o ho q hq
    rcases List.mem_map.mp ho with ⟨v, _, hv⟩
    exact hT v q (hv ▸ hq)
  simpa using pandasSum_bounds hx

/-! ### Helper facts for the aggregate claims -/

lemma max_score_eq : max_score = 44 := by
  have h1 : RQ_RULES.length = 24 := by decide
  have h2 : MQ_RULES.length = 16 := by decide
  have h3 : R_RULES.length = 4 := by decide
  unfold max_score
  rw [h1, h2, h3]
  norm_num

lemma pandasSum_replicate_none (n : ℕ) :
    pandasSum (List.replicate n (none : Option ℚ)) = 0 := by
  induction n with
  | zero => rfl
  | succ n ih =>
    simp only [List.replicate_succ, pandasSum, List.filterMap_cons, id_eq]
    exact ih

lemma pandasSum_replicate_some_zero (n : ℕ) :
    pandasSum (List.replicate n (some (0 : ℚ))) = 0 := by
  induction n with
  | zero => rfl
  | succ n ih =>
    simp only [List.replicate_succ, pandasSum, List.filterMap_cons, id_eq,
      List.sum_cons]
    rw [zero_add]
    exact ih

/-! ### Claims -/

/-- C1: for every rule and every text, if any contradiction keyword
(Methodological evaluator) or exclusion keyword (Relevance evaluator) is a
substring of the text, the verdict is the lowest category of that rubric,
"Not fulfilled" resp. "Not relevant", regardless of which strong, weak,
direct or indirect keywords also match. -/
theorem contradiction_exclusion_dominates :
    (∀ (strong weak contradict : List String) (text : List Char),
        (∃ k ∈ contradict, occursIn k.toList text = true) →
          (evaluate_rule strong weak contradict text).1 = "Not fulfilled") ∧
    (∀ (direct indirect not_rel : List String) (text : List Char),
        (∃ k ∈ not_rel, occursIn k.toList text = true) →
          (evaluate_relevance direct indirect not_rel text).1 = "Not relevant") :=
  ⟨fun _ _ _ _ h => match h with | ⟨_, hk, ho⟩ => eval_rule_contra hk ho,
   fun _ _ _ _ h => match h with | ⟨_, hk, ho⟩ => eval_relevance_excluded hk ho⟩

/-- Witness for C1: a text matching the contradiction keyword "bias" and a
strong keyword is still "Not fulfilled"; a text matching the exclusion
keyword "hepg2" and the direct keyword "oligodendrocyte" is still
"Not relevant". -/
theorem contradiction_exclusion_dominates_witness :
    (∃ k ∈ (["bias"] : List String),
        occursIn k.toList ("validated but bias".toList) = true) ∧
    (evaluate_rule ["validated"] ["reliable"] ["bias"]
        ("validated but bias".toList)).1 = "Not fulfilled" ∧
    (∃ k ∈ (["hepg2"] : List String),
        occursIn k.toList ("hepg2 oligodendrocyte".toList) = true) ∧
    (evaluate_relevance ["oligodendrocyte"] [] ["hepg2"]
        ("hepg2 oligodendrocyte".toList)).1 = "Not relevant" :=
  ⟨⟨"bias", by decide, by decide⟩,
   contradiction_exclusion_dominates.1 ["validated"] ["reliable"] ["bias"] _
     ⟨"bias", by decide, by decide⟩,
   ⟨"hepg2", by decide, by decide⟩,
   contradiction_exclusion_dominates.2 ["oligodendrocyte"] [] ["hepg2"] _
     ⟨"hepg2", by decide, by decide⟩⟩

/-- C3 counterexample: normalization is not idempotent.  On "a..b" the
final substitution step turns each "." into a space, so one application
yields "a  b" (two spaces); a second application collapses them. -/
theorem normalize_not_idempotent :
    normalize_text (normalize_text ("a..b".toList)) ≠
      normalize_text ("a..b".toList) := by decide

/-- C3 amended: normalization stabilizes after two applications: for every
input x, normalize(normalize(normalize(x))) = normalize(normalize(x)), i.e.
normalize composed with itself is idempotent. -/
theorem normalize_twice_idempotent (s : List Char) :
    normalize_text (normalize_text (normalize_text s)) =
      normalize_text (normalize_text s) := by
  have h1 : ∀ c ∈ normalize_text s, allowedChar c := normalize_mem_allowed
  have h2 : ∀ c ∈ normalize_text (normalize_text s), allowedChar c :=
    normalize_mem_allowed
  have hso : SpacedOk (normalize_text (normalize_text s)) := by
    rw [normalize_eq_collapse h1]
    exact (collapseAux_ok (normalize_text s) false).1
  exact normalize_fix h2 hso

/-- C4 counterexample: normalized output can contain a run of two
consecutive spaces, because the final step substitutes a space for every
character outside `[a-z0-9\s]` instead of deleting it. -/
theorem normalize_double_space :
    occursIn ("  ".toList) (normalize_text ("a..b".toList)) = true := by decide

/-- C4 amended: every character of the output of the normalizer lies in the
class `[a-z0-9 ]` (the output matches `^[a-z0-9 ]*$`), but the output may
contain runs of two or more consecutive spaces. -/
theorem normalize_charset (s : List Char) :
    ∀ c ∈ normalize_text s, allowedChar c := normalize_mem_allowed

/-- Witness for the amended C4 theorem at the concrete input "a!". -/
theorem normalize_charset_witness :
    ('a' ∈ normalize_text ("a!".toList)) ∧ allowedChar 'a' :=
  ⟨by decide, normalize_charset ("a!".toList) 'a' (by decide)⟩

/-- C5 (code bug): the contradiction keyword "n=1" of MQ12 contains "=",
which normalization always replaces by a space, so the keyword can never
match any normalized text; a document containing "n=1" together with
"triplicate" is scored "Fulfilled" instead of the claimed "Not fulfilled". -/
theorem mq12_contradiction_never_matches :
    (∀ raw : List Char, occursIn ("n=1".toList) (normalize_text raw) = false) ∧
    MQ_RULES.lookup "MQ12" = some ⟨"Sufficient replicates",
      ["n=", "triplicate", "biological replicates"], ["replicated"],
      ["n=1", "single replicate"]⟩ ∧
    (MQ_RULES.lookup "MQ12").map (fun r =>
        evaluate_rule r.strong r.weak r.contradict
          (normalize_text ("measured in triplicate with n=1".toList))) =
      some ("Fulfilled", "Strong: triplicate") := by
  refine ⟨?_, by decide, by decide⟩
  intro raw
  cases h : occursIn ("n=1".toList) (normalize_text raw) with
  | false => rfl
  | true =>
    have hmem : '=' ∈ normalize_text raw := occursIn_sub h '=' (by decide)
    exact absurd (normalize_mem_allowed '=' hmem) (by decide)

/-- C8: RQ24 is the catalog rule whose keyword lists are all empty, and
`evaluate_rule` on empty keyword lists falls through to the no-match
branch for every text. -/
theorem empty_rule_falls_through :
    RQ_RULES.lookup "RQ24" =
      some ⟨"Indispensable information provided", [], []⟩ ∧
    ∀ text : List Char,
      evaluate_rule [] [] [] text = ("Not reported", "No information found.") :=
  ⟨by decide, fun _ => eval_rule_all_empty⟩

/-- C10: every Reporting verdict is Fulfilled, Partially fulfilled or
Not reported; the "Not fulfilled" branch is unreachable because Reporting
rules are evaluated with an empty contradiction list. -/
theorem rq_not_fulfilled_unreachable :
    ∀ (text : List Char) (strong weak : List String),
      (rqVerdicts text).all (fun v =>
        v == "Fulfilled" || v == "Partially fulfilled" || v == "Not reported") = true ∧
      ((evaluate_rule strong weak [] text).1 == "Not fulfilled") = false := by
  intro text strong weak
  constructor
  · rw [List.all_eq_true]
    intro v hv
    rcases List.mem_map.mp hv with ⟨r, _, hr⟩
    subst hr
    rcases @eval_rule_empty_contra r.2.strong r.2.weak text with h | h | h <;>
      rw [h] <;> decide
  · rcases @eval_rule_empty_contra strong weak text with h | h | h <;>
      rw [h] <;> decide

/-- C2 (code bug): the Reporting evaluator can return "Not reported" (it
does so for RQ24 on every document, here shown on the empty one), but
`RQ_SCORES` has no entry for it, so the pandas lookup produces a missing
value (NaN) rather than a score in the set of 0, 0.5 and 1; the MQ and
Relevance tables do cover their no-match verdicts. -/
theorem rq_scores_missing_entry :
    "Not reported" ∈ rqVerdicts (normalize_text []) ∧
    RQ_SCORES.lookup "Not reported" = none ∧
    MQ_SCORES.lookup "Not reported" = some 0 ∧
    REL_SCORES.lookup "Not relevant" = some 0 := by
  refine ⟨by decide, by decide, by decide, by decide⟩

/-- C6: the final score is the sum of the three rubric totals, the maximum
is 44, and the quality bands are HIGH at or above 0.75 of the maximum,
MODERATE at or above 0.50 and below 0.75 of it, LOW below 0.50, each lower
bound inclusive. -/
theorem final_score_sum_and_bands (text : List Char) :
    final_score text = rq_total text + mq_total text + rel_total text ∧
    max_score = 44 ∧
    (overall_quality text = "HIGH" ↔ final_score text ≥ 0.75 * 44) ∧
    (overall_quality text = "MODERATE" ↔
      (final_score text ≥ 0.50 * 44 ∧ final_score text < 0.75 * 44)) ∧
    (overall_quality text = "LOW" ↔ final_score text < 0.50 * 44) := by
  refine ⟨rfl, max_score_eq, ?_, ?_, ?_⟩ <;>
    simp only [overall_quality, max_score_eq] <;>
    by_cases h1 : final_score text ≥ 0.75 * 44
  · rw [if_pos h1]
    exact iff_of_true rfl h1
  · rw [if_neg h1]
    by_cases h2 : final_score text ≥ 0.50 * 44
    · rw [if_pos h2]
      exact iff_of_false (by decide) (fun hc => h1 hc)
    · rw [if_neg h2]
      exact iff_of_false (by decide) (fun hc => h1 hc)
  · rw [if_pos h1]
    refine iff_of_false (by decide) ?_
    rintro ⟨-, hlt⟩
    exact absurd h1 (not_le.mpr hlt)
  · rw [if_neg h1]
    by_cases h2 : final_score text ≥ 0.50 * 44
    · rw [if_pos h2]
      exact iff_of_true rfl ⟨h2, not_le.mp h1⟩
    · rw [if_neg h2]
      refine iff_of_false (by decide) ?_
      rintro ⟨hge, -⟩
      exact absurd hge h2
  · rw [if_pos h1]
    refine iff_of_false (by decide) ?_
    intro hlt
    have : (0.50 : ℚ) * 44 ≤ 0.75 * 44 := by norm_num
    linarith
  · rw [if_neg h1]
    by_cases h2 : final_score text ≥ 0.50 * 44
    · rw [if_pos h2]
      exact iff_of_false (by decide) (fun hlt => absurd h2 (not_le.mpr hlt))
    · rw [if_neg h2]
      exact iff_of_true rfl (not_le.mp h2)

/-- C7 (code bug): on the empty document every RQ and MQ rule yields
("Not reported", "No information found.") and every Relevance rule yields
("Not relevant", "No relevance terms found."); the MQ per-rule scores are
all 0, but the RQ per-rule scores are all missing from `RQ_SCORES`
(pandas NaN) rather than zero; the totals, skipping the missing values,
and the final score are 0, and the quality band is LOW. -/
theorem empty_input_results :
    RQ_RULES.all (fun r =>
      evaluate_rule r.2.strong r.2.weak [] (normalize_text []) ==
        ("Not reported", "No information found.")) = true ∧
    MQ_RULES.all (fun r =>
      evaluate_rule r.2.strong r.2.weak r.2.contradict (normalize_text []) ==
        ("Not reported", "No information found.")) = true ∧
    R_RULES.all (fun r =>
      evaluate_relevance r.2.direct r.2.indirect r.2.not_rel (normalize_text []) ==
        ("Not relevant", "No relevance terms found.")) = true ∧
    (rqVerdicts (normalize_text [])).map (fun v => RQ_SCORES.lookup v) =
      List.replicate 24 none ∧
    (mqVerdicts (normalize_text [])).map (fun v => MQ_SCORES.lookup v) =
      List.replicate 16 (some 0) ∧
    (relVerdicts (normalize_text [])).map (fun v => REL_SCORES.lookup v) =
      List.replicate 4 (some 0) ∧
    rq_total (normalize_text []) = 0 ∧
    mq_total (normalize_text []) = 0 ∧
    rel_total (normalize_text []) = 0 ∧
    final_score (normalize_text []) = 0 ∧
    overall_quality (normalize_text []) = "LOW" := by
  have hrq : (rqVerdicts (normalize_text [])).map (fun v => RQ_SCORES.lookup v) =
      List.replicate 24 none := by decide
  have hmq : (mqVerdicts (normalize_text [])).map (fun v => MQ_SCORES.lookup v) =
      List.replicate 16 (some 0) := by decide
  have hrel : (relVerdicts (normalize_text [])).map (fun v => REL_SCORES.lookup v) =
      List.replicate 4 (some 0) := by decide
  have trq : rq_total (normalize_text []) = 0 := by
    unfold rq_total
    rw [hrq]
    exact pandasSum_replicate_none 24
  have tmq : mq_total (normalize_text []) = 0 := by
    unfold mq_total
    rw [hmq]
    exact pandasSum_replicate_some_zero 16
  have trel : rel_total (normalize_text []) = 0 := by
    unfold rel_total
    rw [hrel]
    exact pandasSum_replicate_some_zero 4
  have tfin : final_score (normalize_text []) = 0 := by
    unfold final_score
    rw [trq, tmq, trel]
    norm_num
  refine ⟨by decide, by decide, by decide, hrq, hmq, hrel, trq, tmq, trel, tfin, ?_⟩
  unfold overall_quality
  rw [tfin, max_score_eq,
    if_neg (by norm_num : ¬ ((0 : ℚ) ≥ 0.75 * 44)),
    if_neg (by norm_num : ¬ ((0 : ℚ) ≥ 0.50 * 44))]

/-- C9: each rubric total lies between 0 and its rule count (24, 16, 4)
and the final score lies between 0 and 44. -/
theorem totals_and_final_bounded (text : List Char) :
    0 ≤ rq_total text ∧ rq_total text ≤ 24 ∧
    0 ≤ mq_total text ∧ mq_total text ≤ 16 ∧
    0 ≤ rel_total text ∧ rel_total text ≤ 4 ∧
    0 ≤ final_score text ∧ final_score text ≤ 44 := by
  have hrq := rubric_total_bounds (fun _ _ h => rq_scores_bound h) (rqVerdicts text)
  have hmq := rubric_total_bounds (fun _ _ h => mq_scores_bound h) (mqVerdicts text)
  have hrel := rubric_total_bounds (fun _ _ h => rel_scores_bound h) (relVerdicts text)
  have l1 : (rqVerdicts text).length = 24 := by
    unfold rqVerdicts; rw [List.length_map]; rfl
  have l2 : (mqVerdicts text).length = 16 := by
    unfold mqVerdicts; rw [List.length_map]; rfl
  have l3 : (relVerdicts text).length = 4 := by
    unfold relVerdicts; rw [List.length_map]; rfl
  rw [l1] at hrq
  rw [l2] at hmq
  rw [l3] at hrel
  have e1 : rq_total text =
      pandasSum ((rqVerdicts text).map (fun v => RQ_SCORES.lookup v)) := rfl
  have e2 : mq_total text =
      pandasSum ((mqVerdicts text).map (fun v => MQ_SCORES.lookup v)) := rfl
  have e3 : rel_total text =
      pandasSum ((relVerdicts text).map (fun v => REL_SCORES.lookup v)) := rfl
  have e4 : final_score text = rq_total text + mq_total text + rel_total text := rfl
  rw [← e1] at hrq
  rw [← e2] at hmq
  rw [← e3] at hrel
  push_cast at hrq hmq hrel
  refine ⟨hrq.1, hrq.2, hmq.1, hmq.2, hrel.1, hrel.2, ?_, ?_⟩
  · rw [e4]; linarith [hrq.1, hmq.1, hrel.1]
  · rw [e4]; linarith [hrq.2, hmq.2, hrel.2]
